import Mathlib

/-!
Verification of the preminted-supply indexer pipeline
(`packages/backend/src/modules/tvl/modules/PremintedModule.ts`).

The first half embeds the static wiring code of `PremintedModule.ts`:
how Data Indexers (`PremintedIndexer`) and Value Indexers are created
from the TVL configuration, which parents each is declared with, and
the module's `start` routine.  Handles to externally-created indexer
objects (the per-chain Block-Timestamp Indexers, the shared
Descendant/Price Indexer) are modelled as natural numbers; the
`configMapping.getPriceConfigFromAmountConfig` lookup is modelled as a
function from amount entries to price-config handles.

The second half models, from the specification, the runtime cycling
discipline of the indexers and the rate-limited client's retry policy,
whose source is not part of the inspected material.
-/

/-- One entry of `config.amounts`.  A `PremintedEntry` is an entry whose
`type` field is the string `"preminted"`.  Timestamps (`sinceTimestamp`,
`untilTimestamp`, via `UnixTime.toNumber()`) are natural numbers. -/
structure AmountEntry where
  chain : String
  type : String
  address : String
  project : String
  sinceTimestamp : Nat
  untilTimestamp : Option Nat
deriving DecidableEq, Repr

/-- The provider part of a chain configuration (`chainConfig.config`). -/
structure ProviderConfig where
  providerUrl : String
  providerCallsPerMinute : Nat
deriving DecidableEq, Repr

/-- One entry of `config.chains`; a chain is enabled when `config` is
present (`if (!chainConfig.config) continue`). -/
structure ChainConfig where
  chain : String
  config : Option ProviderConfig
deriving DecidableEq, Repr

/-- The slice of `TvlConfig` that `PremintedModule.ts` reads. -/
structure TvlConfig where
  chains : List ChainConfig
  amounts : List AmountEntry
  maxTimestampsToAggregateAtOnce : Nat
deriving DecidableEq, Repr

/-- A parent reference held by a Data Indexer: the Block-Timestamp
Indexer object fetched from `blockTimestampIndexers.get(chain)`,
identified by its handle. -/
inductive DataParent where
  | blockTimestamp (handle : Nat)
deriving DecidableEq, Repr

/-- The Data Indexer (`PremintedIndexer`) instance as constructed at
`PremintedModule.ts:104-114`: the fields of the constructor argument
that are data (service objects such as `amountService`, `logger`,
`db` are omitted as they carry no state the claims mention). -/
structure PremintedIndexer where
  parents : List DataParent
  configuration : AmountEntry
  minHeight : Nat
deriving DecidableEq, Repr

/-- A parent reference held by a Value Indexer: either the shared
Descendant/Price Indexer (by handle) or a `PremintedIndexer` object. -/
inductive ValueParent where
  | descendant (handle : Nat)
  | data (indexer : PremintedIndexer)
deriving DecidableEq, Repr

/-- The Value Indexer instance as constructed at
`PremintedModule.ts:118-132`.  `priceConfigs` holds handles produced by
`configMapping.getPriceConfigFromAmountConfig`. -/
structure ValueIndexer where
  priceConfigs : List Nat
  amountConfigs : List AmountEntry
  project : String
  dataSource : String
  parents : List ValueParent
  minHeight : Nat
  maxHeight : Option Nat
  maxTimestampsToProcessAtOnce : Nat
deriving DecidableEq, Repr

/-- The body of the inner loop of `createIndexers` for one preminted
entry: the `new PremintedIndexer({...})` construction. -/
def mkDataIndexer (bti : Nat) (preminted : AmountEntry) : PremintedIndexer :=
  { parents := [DataParent.blockTimestamp bti]
    configuration := preminted
    minHeight := preminted.sinceTimestamp }

/-- The identity key `` `${chain}_preminted_${preminted.address}` ``
passed as `dataSource`. -/
def premintedKey (chain address : String) : String :=
  chain ++ "_preminted_" ++ address

/-- The body of the inner loop of `createIndexers` for one preminted
entry: the `new ValueIndexer({...})` construction.  `indexer` in the
source is the `PremintedIndexer` just created, i.e.
`mkDataIndexer bti preminted`. -/
def mkValueIndexer (chain : String) (descendantPriceIndexer : Nat)
    (configMapping : AmountEntry → Nat) (maxTimestampsToAggregateAtOnce : Nat)
    (bti : Nat) (preminted : AmountEntry) : ValueIndexer :=
  { priceConfigs := [configMapping preminted]
    amountConfigs := [preminted]
    project := preminted.project
    dataSource := premintedKey chain preminted.address
    parents := [ValueParent.descendant descendantPriceIndexer,
                ValueParent.data (mkDataIndexer bti preminted)]
    minHeight := preminted.sinceTimestamp
    maxHeight := preminted.untilTimestamp
    maxTimestampsToProcessAtOnce := maxTimestampsToAggregateAtOnce }

/-- The filter chain `config.amounts.filter(a => a.chain === chain)
.filter(a => a.type === 'preminted')`. -/
def chainTokens (amounts : List AmountEntry) (chain : String) : List AmountEntry :=
  (amounts.filter fun a => a.chain == chain).filter fun a => a.type == "preminted"

/-- The assertion message at `PremintedModule.ts:98-101`. -/
def btiAssertMessage : String :=
  "blockTimestampIndexer should be defined for enabled chain"

/-- The per-chain loop of `createIndexers`, recursing over
`config.chains`.  A disabled chain (`config` absent) and a chain with no
preminted tokens are skipped; an enabled chain with tokens but no
Block-Timestamp Indexer trips the `assert`, modelled as `Except.error`.
`blockTimestampIndexers && blockTimestampIndexers.get(chain)` is
`btis.bind (fun m => m chain)`. -/
def createIndexersAux (amounts : List AmountEntry)
    (maxTimestampsToAggregateAtOnce : Nat) (descendantPriceIndexer : Nat)
    (configMapping : AmountEntry → Nat) (btis : Option (String → Option Nat)) :
    List ChainConfig → Except String (List PremintedIndexer × List ValueIndexer)
  | [] => .ok ([], [])
  | chainConfig :: rest =>
    match chainConfig.config with
    | none =>
      createIndexersAux amounts maxTimestampsToAggregateAtOnce
        descendantPriceIndexer configMapping btis rest
    | some _ =>
      let premintedTokens := chainTokens amounts chainConfig.chain
      if premintedTokens.length = 0 then
        createIndexersAux amounts maxTimestampsToAggregateAtOnce
          descendantPriceIndexer configMapping btis rest
      else
        match btis.bind (fun m => m chainConfig.chain) with
        | none => .error btiAssertMessage
        | some bti =>
          match createIndexersAux amounts maxTimestampsToAggregateAtOnce
              descendantPriceIndexer configMapping btis rest with
          | .error e => .error e
          | .ok (ds, vs) =>
            .ok (premintedTokens.map (mkDataIndexer bti) ++ ds,
                 premintedTokens.map
                   (mkValueIndexer chainConfig.chain descendantPriceIndexer
                     configMapping maxTimestampsToAggregateAtOnce bti) ++ vs)

/-- `createIndexers` (`PremintedModule.ts:50-138`). -/
def createIndexers (config : TvlConfig) (descendantPriceIndexer : Nat)
    (configMapping : AmountEntry → Nat) (btis : Option (String → Option Nat)) :
    Except String (List PremintedIndexer × List ValueIndexer) :=
  createIndexersAux config.amounts config.maxTimestampsToAggregateAtOnce
    descendantPriceIndexer configMapping btis config.chains

/-- The module value returned by `initPremintedModule`: the created
indexers, from which `start`'s behaviour is derived. -/
structure PremintedModule where
  dataIndexers : List PremintedIndexer
  valueIndexers : List ValueIndexer
deriving DecidableEq, Repr

/-- A start event: which indexer's `start()` was awaited. -/
inductive StartedIndexer where
  | data (d : PremintedIndexer)
  | value (v : ValueIndexer)
deriving DecidableEq, Repr

/-- The sequence of start events performed by the module's `start`
routine (`PremintedModule.ts:38-46`): each data indexer is awaited in
order, then each value indexer. -/
def PremintedModule.startSequence (m : PremintedModule) : List StartedIndexer :=
  m.dataIndexers.map StartedIndexer.data ++ m.valueIndexers.map StartedIndexer.value

/-- `initPremintedModule` (`PremintedModule.ts:18-48`): create the
indexers, return `none` when no data indexer was created, otherwise the
module. -/
def initPremintedModule (config : TvlConfig) (descendantPriceIndexer : Nat)
    (configMapping : AmountEntry → Nat) (btis : Option (String → Option Nat)) :
    Except String (Option PremintedModule) :=
  match createIndexers config descendantPriceIndexer configMapping btis with
  | .error e => .error e
  | .ok (dataIndexers, valueIndexers) =>
    if dataIndexers.length = 0 then .ok none
    else .ok (some { dataIndexers, valueIndexers })

/-- The list of preminted entries on enabled chains, in creation order:
the positions for which `createIndexers` builds an indexer pair. -/
def enabledPreminted (amounts : List AmountEntry) : List ChainConfig → List AmountEntry
  | [] => []
  | chainConfig :: rest =>
    match chainConfig.config with
    | none => enabledPreminted amounts rest
    | some _ => chainTokens amounts chainConfig.chain ++ enabledPreminted amounts rest

/-- Modelled from the spec: minimum of an optional own bound and a value
("min(own max height, ...)" where the max height may be absent). -/
def optMin : Option Nat → Nat → Nat
  | none, n => n
  | some m, n => min m n

/-- Modelled from the spec (section 4.5, the Data Indexer cycle, whose
source `PremintedIndexer` is not in the inspected material): the safe
bound of one cycle is the minimum of the indexer's own max height, the
configuration's end timestamp when set, and the parent Block-Timestamp
Indexer's cursor. -/
def dataSafeBound (maxHeight : Option Nat) (endTs : Option Nat)
    (parentCursor : Nat) : Nat :=
  optMin maxHeight (optMin endTs parentCursor)

/-- Modelled from the spec (section 4.5): one Data Indexer cycle.
Timestamps strictly after the cursor up to the safe bound are processed
in increasing order, the cursor advancing with each persisted record;
`k` is the number of timestamps actually completed before the cycle
stopped (batch width, or fewer on `NotYetAvailable` or failure).
Returns the new cursor and the timestamps of the newly persisted
Raw Amount Records. -/
def dataCycle (maxHeight : Option Nat) (endTs : Option Nat)
    (parentCursor cursor k : Nat) : Nat × List Nat :=
  let bound := dataSafeBound maxHeight endTs parentCursor
  let newCursor := max cursor (min (cursor + k) bound)
  (newCursor, List.range' (cursor + 1) (newCursor - cursor))

/-- Modelled from the spec (section 4.7, the Value Indexer cycle): safe
bound = min(both parents' cursors, own max height); the cursor advances
through at most `k` timestamps up to that bound. -/
def valueCycle (maxHeight : Option Nat) (dataCursor priceCursor cursor k : Nat) :
    Nat :=
  let bound := optMin maxHeight (min dataCursor priceCursor)
  max cursor (min (cursor + k) bound)

/-- Modelled from the spec: the static limits of one asset position's
indexer pair (a Data Indexer feeding a Value Indexer). -/
structure PipelineConfig where
  dataMaxHeight : Option Nat
  dataEndTs : Option Nat
  valueMaxHeight : Option Nat
deriving DecidableEq, Repr

/-- Modelled from the spec (section 5): the mutable state of one asset
position's pipeline — the cursors of the Block-Timestamp Indexer, the
Descendant/Price Indexer, the Data Indexer and the Value Indexer, plus
the timestamps of the Raw Amount Records the Data Indexer persisted. -/
structure PipelineState where
  btiCursor : Nat
  priceCursor : Nat
  dataCursor : Nat
  valueCursor : Nat
  dataRecords : List Nat
deriving DecidableEq, Repr

/-- Modelled from the spec: one scheduling step of the concurrent loops:
which indexer ran a cycle and how far it got.  For the two root
indexers, `target` / `avail` is the externally-imposed bound of that
cycle ("now minus a safety margin" for the Block-Timestamp Indexer,
upstream price availability for the Descendant/Price Indexer) and `k`
the number of boundaries completed. -/
inductive PipelineAction where
  | btiStep (target k : Nat)
  | priceStep (avail k : Nat)
  | dataStep (k : Nat)
  | valueStep (k : Nat)
deriving DecidableEq, Repr

/-- Modelled from the spec: apply one cycle to the pipeline state.  Each
cursor advances only within its cycle's safe bound, recomputed from the
state at the start of the cycle. -/
def applyAction (cfg : PipelineConfig) (s : PipelineState) :
    PipelineAction → PipelineState
  | .btiStep target k =>
    { s with btiCursor := max s.btiCursor (min (s.btiCursor + k) target) }
  | .priceStep avail k =>
    { s with priceCursor := max s.priceCursor (min (s.priceCursor + k) avail) }
  | .dataStep k =>
    let r := dataCycle cfg.dataMaxHeight cfg.dataEndTs s.btiCursor s.dataCursor k
    { s with dataCursor := r.1, dataRecords := s.dataRecords ++ r.2 }
  | .valueStep k =>
    { s with valueCursor :=
        valueCycle cfg.valueMaxHeight s.dataCursor s.priceCursor s.valueCursor k }

/-- Modelled from the spec: run a finite schedule of cycles. -/
def runPipeline (cfg : PipelineConfig) (s : PipelineState) :
    List PipelineAction → PipelineState
  | [] => s
  | a :: rest => runPipeline cfg (applyAction cfg s a) rest

/-- Pointwise order on the four cursors of a pipeline state. -/
def cursorsLe (s t : PipelineState) : Prop :=
  s.btiCursor ≤ t.btiCursor ∧ s.priceCursor ≤ t.priceCursor ∧
  s.dataCursor ≤ t.dataCursor ∧ s.valueCursor ≤ t.valueCursor

/-- Modelled from the spec (sections 4.1 and 7, the Rate-Limited Chain
Client, whose source is not in the inspected material): the outcome of
one underlying provider call. -/
inductive CallOutcome (α : Type) where
  | ok (value : α)
  | transientFailure
  | malformed
deriving DecidableEq, Repr

/-- Modelled from the spec (section 7): the errors the client surfaces. -/
inductive ClientError where
  | providerUnavailable
  | providerProtocolError
deriving DecidableEq, Repr

/-- Modelled from the spec (section 4.1): the retry loop.  `provider i`
is the outcome of the i-th attempt; `remaining` the attempts left of the
configured bound.  Transient failures are retried (the exponential
backoff delay does not affect the returned value and is not modelled);
a malformed response fails immediately; exhaustion surfaces
`providerUnavailable`.  Returns the result and the number of calls
made. -/
def attemptCalls {α : Type} (provider : Nat → CallOutcome α) (attempt : Nat) :
    Nat → Except ClientError α × Nat
  | 0 => (.error .providerUnavailable, 0)
  | remaining + 1 =>
    match provider attempt with
    | .ok v => (.ok v, 1)
    | .malformed => (.error .providerProtocolError, 1)
    | .transientFailure =>
      let r := attemptCalls provider (attempt + 1) remaining
      (r.1, r.2 + 1)

/-- Modelled from the spec (section 4.1): a call through the
Rate-Limited Chain Client with the configured attempt bound. -/
def callWithRetries {α : Type} (provider : Nat → CallOutcome α)
    (maxAttempts : Nat) : Except ClientError α × Nat :=
  attemptCalls provider 0 maxAttempts

/-- A sample preminted asset position used as a concrete test vector. -/
def sampleEntry : AmountEntry :=
  { chain := "ethereum", type := "preminted", address := "0xabc"
    project := "projA", sinceTimestamp := 100, untilTimestamp := some 200 }

/-- A sample provider configuration for an enabled chain. -/
def sampleProvider : ProviderConfig :=
  { providerUrl := "http://rpc.example", providerCallsPerMinute := 60 }

/-- A sample TVL configuration: one enabled chain carrying one preminted
position. -/
def sampleTvlConfig : TvlConfig :=
  { chains := [{ chain := "ethereum", config := some sampleProvider }]
    amounts := [sampleEntry]
    maxTimestampsToAggregateAtOnce := 10 }

/-- A sample Block-Timestamp Indexer map: handle 7 for `ethereum`. -/
def sampleBtis : Option (String → Option Nat) :=
  some fun c => if c == "ethereum" then some 7 else none

/-- A sample `configMapping.getPriceConfigFromAmountConfig`. -/
def sampleCm : AmountEntry → Nat := fun _ => 0

/-- The module `initPremintedModule` builds from `sampleTvlConfig`. -/
def sampleModule : PremintedModule :=
  { dataIndexers := [mkDataIndexer 7 sampleEntry]
    valueIndexers := [mkValueIndexer "ethereum" 3 sampleCm 10 7 sampleEntry] }

/-- A sample TVL configuration with no amounts at all. -/
def emptyTvlConfig : TvlConfig :=
  { chains := [{ chain := "ethereum", config := some sampleProvider }]
    amounts := []
    maxTimestampsToAggregateAtOnce := 10 }

/-- A sample pipeline configuration: the data indexer's position ends at
timestamp 75. -/
def samplePipeCfg : PipelineConfig :=
  { dataMaxHeight := none, dataEndTs := some 75, valueMaxHeight := some 200 }

/-- A sample pipeline state whose Value Indexer is behind both parents. -/
def samplePipeState : PipelineState :=
  { btiCursor := 5, priceCursor := 4, dataCursor := 3, valueCursor := 2
    dataRecords := [] }

/-- A sample pipeline state whose Data Indexer has reached the end
timestamp 75 of `samplePipeCfg`. -/
def sampleEndState : PipelineState :=
  { btiCursor := 100, priceCursor := 90, dataCursor := 75, valueCursor := 60
    dataRecords := [70, 71] }

/-- A sample schedule of pipeline cycles. -/
def sampleActs : List PipelineAction :=
  [.btiStep 50 10, .dataStep 4, .priceStep 30 10, .valueStep 6]

theorem chainTokens_mem {amounts : List AmountEntry} {chain : String}
    {p : AmountEntry} (hp : p ∈ chainTokens amounts chain) :
    p.chain = chain ∧ p.type = "preminted" := by
  unfold chainTokens at hp
  simp only [List.mem_filter, beq_iff_eq] at hp
  exact ⟨hp.1.2, hp.2⟩

theorem createIndexersAux_ok {amounts : List AmountEntry} {maxT desc : Nat}
    {cm : AmountEntry → Nat} {btis : Option (String → Option Nat)} :
    ∀ {chains : List ChainConfig} {ds : List PremintedIndexer}
      {vs : List ValueIndexer},
    createIndexersAux amounts maxT desc cm btis chains = .ok (ds, vs) →
    ∃ pairs : List (Nat × AmountEntry),
      ds = pairs.map (fun bp => mkDataIndexer bp.1 bp.2) ∧
      vs = pairs.map (fun bp => mkValueIndexer bp.2.chain desc cm maxT bp.1 bp.2) ∧
      pairs.map Prod.snd = enabledPreminted amounts chains ∧
      ∀ bp ∈ pairs, btis.bind (fun m => m bp.2.chain) = some bp.1 := by
  intro chains
  induction chains with
  | nil =>
    intro ds vs h
    simp only [createIndexersAux, Except.ok.injEq, Prod.mk.injEq] at h
    exact ⟨[], by simp [← h.1, ← h.2, enabledPreminted]⟩
  | cons c rest ih =>
    intro ds vs h
    simp only [createIndexersAux] at h
    split at h
    · rename_i hcfg
      obtain ⟨pairs, h1, h2, h3, h4⟩ := ih h
      exact ⟨pairs, h1, h2, by simp [enabledPreminted, hcfg, h3], h4⟩
    · rename_i prov hcfg
      split at h
      · rename_i hlen
        obtain ⟨pairs, h1, h2, h3, h4⟩ := ih h
        refine ⟨pairs, h1, h2, ?_, h4⟩
        have hnil : chainTokens amounts c.chain = [] := List.length_eq_zero.mp hlen
        simp [enabledPreminted, hcfg, hnil, h3]
      · rename_i hlen
        split at h
        · exact absurd h (by simp)
        · rename_i bti hbti
          split at h
          · exact absurd h (by simp)
          · rename_i ds2 vs2 hrec
            obtain ⟨pairs2, h1, h2, h3, h4⟩ := ih hrec
            simp only [Except.ok.injEq, Prod.mk.injEq] at h
            refine ⟨(chainTokens amounts c.chain).map (fun p => (bti, p)) ++ pairs2,
              ?_, ?_, ?_, ?_⟩
            · rw [← h.1, h1]
              simp [List.map_map, Function.comp]
            · rw [← h.2, h2]
              simp only [List.map_append, List.map_map]
              congr 1
              apply List.map_congr_left
              intro p hp
              simp only [Function.comp]
              rw [(chainTokens_mem hp).1]
            · simp only [List.map_append, List.map_map, enabledPreminted, hcfg]
              simp [Function.comp, h3]
            · intro bp hbp
              rcases List.mem_append.mp hbp with hbp | hbp
              · obtain ⟨p, hp, rfl⟩ := List.mem_map.mp hbp
                simpa [(chainTokens_mem hp).1] using hbti
              · exact h4 bp hbp

theorem initPremintedModule_ok_some {config : TvlConfig} {desc : Nat}
    {cm : AmountEntry → Nat} {btis : Option (String → Option Nat)}
    {m : PremintedModule}
    (h : initPremintedModule config desc cm btis = .ok (some m)) :
    createIndexers config desc cm btis = .ok (m.dataIndexers, m.valueIndexers) := by
  unfold initPremintedModule at h
  split at h
  · exact absurd h (by simp)
  · rename_i ds vs hc
    split at h
    · exact absurd h (by simp)
    · simp only [Except.ok.injEq, Option.some.injEq] at h
      rw [hc, ← h]

theorem enabledPreminted_nil_ok {amounts : List AmountEntry} {maxT desc : Nat}
    {cm : AmountEntry → Nat} {btis : Option (String → Option Nat)} :
    ∀ {chains : List ChainConfig}, enabledPreminted amounts chains = [] →
    createIndexersAux amounts maxT desc cm btis chains = .ok ([], []) := by
  intro chains
  induction chains with
  | nil => intro _; rfl
  | cons c rest ih =>
    intro h
    simp only [enabledPreminted] at h
    simp only [createIndexersAux]
    cases hc : c.config with
    | none =>
      rw [hc] at h
      exact ih h
    | some prov =>
      rw [hc] at h
      have h2 := List.append_eq_nil.mp h
      simp only [h2.1, List.length_nil, if_pos rfl]
      exact ih h2.2

theorem createIndexersAux_error {amounts : List AmountEntry} {maxT desc : Nat}
    {cm : AmountEntry → Nat} {btis : Option (String → Option Nat)} :
    ∀ {chains : List ChainConfig} {c : ChainConfig}, c ∈ chains →
    c.config.isSome → chainTokens amounts c.chain ≠ [] →
    btis.bind (fun m => m c.chain) = none →
    createIndexersAux amounts maxT desc cm btis chains = .error btiAssertMessage := by
  intro chains
  induction chains with
  | nil => intro c hc; exact absurd hc (List.not_mem_nil c)
  | cons a rest ih =>
    intro c hc hsome htok hbti
    rcases List.mem_cons.mp hc with rfl | hc
    · simp only [createIndexersAux]
      cases hcfg : c.config with
      | none => rw [hcfg] at hsome; exact absurd hsome (by simp)
      | some prov =>
        have hlen : ¬ (chainTokens amounts c.chain).length = 0 := by
          intro h0
          exact htok (List.length_eq_zero.mp h0)
        simp only [if_neg hlen, hbti]
    · have hrest := ih hc hsome htok hbti
      simp only [createIndexersAux]
      cases hcfg : a.config with
      | none => exact hrest
      | some prov =>
        by_cases hlen : (chainTokens amounts a.chain).length = 0
        · simp only [if_pos hlen]
          exact hrest
        · simp only [if_neg hlen]
          cases hb : btis.bind (fun m => m a.chain) with
          | none => rfl
          | some bti => rw [hrest]

theorem optMin_le (o : Option Nat) (n : Nat) : optMin o n ≤ n := by
  cases o with
  | none => exact le_refl n
  | some m => exact min_le_right m n

theorem cursorsLe_refl (s : PipelineState) : cursorsLe s s :=
  ⟨le_refl _, le_refl _, le_refl _, le_refl _⟩

theorem cursorsLe_trans {s t u : PipelineState} (h1 : cursorsLe s t)
    (h2 : cursorsLe t u) : cursorsLe s u :=
  ⟨le_trans h1.1 h2.1, le_trans h1.2.1 h2.2.1, le_trans h1.2.2.1 h2.2.2.1,
   le_trans h1.2.2.2 h2.2.2.2⟩

theorem cursorsLe_applyAction (cfg : PipelineConfig) (s : PipelineState)
    (a : PipelineAction) : cursorsLe s (applyAction cfg s a) := by
  cases a with
  | btiStep target k =>
    exact ⟨le_max_left _ _, le_refl _, le_refl _, le_refl _⟩
  | priceStep avail k =>
    exact ⟨le_refl _, le_max_left _ _, le_refl _, le_refl _⟩
  | dataStep k =>
    exact ⟨le_refl _, le_refl _, le_max_left _ _, le_refl _⟩
  | valueStep k =>
    exact ⟨le_refl _, le_refl _, le_refl _, le_max_left _ _⟩

theorem cursorsLe_runPipeline (cfg : PipelineConfig) :
    ∀ (acts : List PipelineAction) (s : PipelineState),
    cursorsLe s (runPipeline cfg s acts)
  | [], s => cursorsLe_refl s
  | a :: rest, s =>
    cursorsLe_trans (cursorsLe_applyAction cfg s a)
      (cursorsLe_runPipeline cfg rest (applyAction cfg s a))

theorem runPipeline_append (cfg : PipelineConfig) :
    ∀ (as bs : List PipelineAction) (s : PipelineState),
    runPipeline cfg s (as ++ bs) = runPipeline cfg (runPipeline cfg s as) bs
  | [], bs, s => rfl
  | a :: rest, bs, s => runPipeline_append cfg rest bs (applyAction cfg s a)

theorem valueBound_applyAction {cfg : PipelineConfig} {s : PipelineState}
    (h : s.valueCursor ≤ min s.dataCursor s.priceCursor) (a : PipelineAction) :
    (applyAction cfg s a).valueCursor ≤
      min (applyAction cfg s a).dataCursor (applyAction cfg s a).priceCursor := by
  cases a with
  | btiStep target k => exact h
  | priceStep avail k =>
    exact le_trans h (le_min (min_le_left _ _)
      (le_trans (min_le_right _ _) (le_max_left _ _)))
  | dataStep k =>
    exact le_trans h (le_min (le_trans (min_le_left _ _) (le_max_left _ _))
      (min_le_right _ _))
  | valueStep k =>
    apply max_le h
    exact le_trans (min_le_right _ _) (optMin_le _ _)

theorem valueBound_runPipeline (cfg : PipelineConfig) :
    ∀ (acts : List PipelineAction) (s : PipelineState),
    s.valueCursor ≤ min s.dataCursor s.priceCursor →
    (runPipeline cfg s acts).valueCursor ≤
      min (runPipeline cfg s acts).dataCursor (runPipeline cfg s acts).priceCursor
  | [], s, h => h
  | a :: rest, s, h =>
    valueBound_runPipeline cfg rest (applyAction cfg s a)
      (valueBound_applyAction h a)

theorem dataEnd_applyAction {cfg : PipelineConfig} {s : PipelineState} {e : Nat}
    (hcfg : cfg.dataEndTs = some e) (hcur : s.dataCursor = e)
    (a : PipelineAction) :
    (applyAction cfg s a).dataCursor = e ∧
    (applyAction cfg s a).dataRecords = s.dataRecords := by
  cases a with
  | btiStep target k => exact ⟨hcur, rfl⟩
  | priceStep avail k => exact ⟨hcur, rfl⟩
  | valueStep k => exact ⟨hcur, rfl⟩
  | dataStep k =>
    have hbound : dataSafeBound cfg.dataMaxHeight cfg.dataEndTs s.btiCursor ≤ e := by
      unfold dataSafeBound
      rw [hcfg]
      exact le_trans (optMin_le _ _) (min_le_left e _)
    have hmin : min (s.dataCursor + k)
        (dataSafeBound cfg.dataMaxHeight cfg.dataEndTs s.btiCursor) ≤ s.dataCursor := by
      rw [hcur]
      exact le_trans (min_le_right _ _) hbound
    have hcyc : dataCycle cfg.dataMaxHeight cfg.dataEndTs s.btiCursor
        s.dataCursor k = (s.dataCursor, []) := by
      unfold dataCycle
      simp only [max_eq_left hmin, Nat.sub_self, List.range'_zero]
    constructor
    · simp only [applyAction]
      rw [hcyc]
      exact hcur
    · simp only [applyAction, hcyc, List.append_nil]

theorem dataEnd_runPipeline (cfg : PipelineConfig) {e : Nat}
    (hcfg : cfg.dataEndTs = some e) :
    ∀ (acts : List PipelineAction) (s : PipelineState), s.dataCursor = e →
    (runPipeline cfg s acts).dataCursor = e ∧
    (runPipeline cfg s acts).dataRecords = s.dataRecords
  | [], s, hcur => ⟨hcur, rfl⟩
  | a :: rest, s, hcur => by
    have hstep := dataEnd_applyAction hcfg hcur a
    have hrest := dataEnd_runPipeline cfg hcfg rest (applyAction cfg s a) hstep.1
    exact ⟨hrest.1, hrest.2.trans hstep.2⟩

theorem attemptCalls_allFail {α : Type} {provider : Nat → CallOutcome α}
    (hfail : ∀ i, provider i = CallOutcome.transientFailure) :
    ∀ (remaining attempt : Nat),
    attemptCalls provider attempt remaining =
      (.error ClientError.providerUnavailable, remaining)
  | 0, attempt => rfl
  | remaining + 1, attempt => by
    simp only [attemptCalls, hfail attempt]
    rw [attemptCalls_allFail hfail remaining (attempt + 1)]

theorem premintedKey_inj (chain : String) {a1 a2 : String}
    (h : premintedKey chain a1 = premintedKey chain a2) : a1 = a2 := by
  unfold premintedKey at h
  have hd := congrArg String.data h
  simp only [String.data_append, List.append_assoc] at hd
  exact String.ext (List.append_cancel_left (List.append_cancel_left hd))

/-- Claim C1: every Value Indexer created by `createIndexers` is declared
with exactly two parents, the Descendant/Price Indexer and the Data
Indexer created for the same position; and, in the spec model of the
running pipeline, at all times the Value Indexer's cursor is at most the
minimum of its Data parent's and price parent's cursors. -/
theorem valueIndexer_two_parents_and_cursor_bound :
    (∀ (config : TvlConfig) (desc : Nat) (cm : AmountEntry → Nat)
       (btis : Option (String → Option Nat))
       (ds : List PremintedIndexer) (vs : List ValueIndexer),
       createIndexers config desc cm btis = .ok (ds, vs) →
       ds.length = vs.length ∧
       ∀ (i : Nat) (hv : i < vs.length) (hd : i < ds.length),
         (vs.get ⟨i, hv⟩).parents =
           [ValueParent.descendant desc, ValueParent.data (ds.get ⟨i, hd⟩)]) ∧
    (∀ (cfg : PipelineConfig) (s : PipelineState) (acts : List PipelineAction),
       s.valueCursor ≤ min s.dataCursor s.priceCursor →
       (runPipeline cfg s acts).valueCursor ≤
         min (runPipeline cfg s acts).dataCursor
           (runPipeline cfg s acts).priceCursor) := by
  constructor
  · intro config desc cm btis ds vs h
    obtain ⟨pairs, h1, h2, h3, h4⟩ := createIndexersAux_ok h
    subst h1
    subst h2
    refine ⟨by simp, ?_⟩
    intro i hv hd
    simp only [List.get_eq_getElem, List.getElem_map]
    rfl
  · intro cfg s acts h
    exact valueBound_runPipeline cfg acts s h

theorem valueIndexer_two_parents_and_cursor_bound_witness :
    ([mkValueIndexer "ethereum" 3 sampleCm 10 7 sampleEntry].get ⟨0, by decide⟩).parents =
      [ValueParent.descendant 3,
       ValueParent.data ([mkDataIndexer 7 sampleEntry].get ⟨0, by decide⟩)] ∧
    (runPipeline samplePipeCfg samplePipeState sampleActs).valueCursor ≤
      min (runPipeline samplePipeCfg samplePipeState sampleActs).dataCursor
        (runPipeline samplePipeCfg samplePipeState sampleActs).priceCursor :=
  ⟨(valueIndexer_two_parents_and_cursor_bound.1 sampleTvlConfig 3 sampleCm sampleBtis
      [mkDataIndexer 7 sampleEntry] [mkValueIndexer "ethereum" 3 sampleCm 10 7 sampleEntry]
      rfl).2 0 (by decide) (by decide),
   valueIndexer_two_parents_and_cursor_bound.2 samplePipeCfg samplePipeState sampleActs
      (by decide)⟩

/-- Claim C2: in the spec model, once a Data Indexer's cursor has reached
the configuration's end timestamp, any further schedule of cycles leaves
the cursor there and persists no new Raw Amount Records, however far the
parent indexers keep advancing. -/
theorem dataIndexer_stops_at_end_timestamp
    (cfg : PipelineConfig) (s : PipelineState) (acts : List PipelineAction)
    (e : Nat) (hcfg : cfg.dataEndTs = some e) (hcur : s.dataCursor = e) :
    (runPipeline cfg s acts).dataCursor = e ∧
    (runPipeline cfg s acts).dataRecords = s.dataRecords :=
  dataEnd_runPipeline cfg hcfg acts s hcur

theorem dataIndexer_stops_at_end_timestamp_witness :
    (runPipeline samplePipeCfg sampleEndState sampleActs).dataCursor = 75 ∧
    (runPipeline samplePipeCfg sampleEndState sampleActs).dataRecords = [70, 71] :=
  dataIndexer_stops_at_end_timestamp samplePipeCfg sampleEndState sampleActs 75 rfl rfl

/-- Claim C3: in the spec model, every indexer's cursor is monotonically
non-decreasing over time: observing any schedule after t1 and after
t2 ≥ t1 cycles, each cursor at the later observation is at least its
value at the earlier one. -/
theorem cursor_monotonic (cfg : PipelineConfig) (s : PipelineState)
    (acts : List PipelineAction) (t1 t2 : Nat) (h : t1 ≤ t2) :
    cursorsLe (runPipeline cfg s (acts.take t1))
      (runPipeline cfg s (acts.take t2)) := by
  have h2 : t1 + (t2 - t1) = t2 := by omega
  have hsplit : acts.take t2 = acts.take t1 ++ (acts.drop t1).take (t2 - t1) := by
    conv_lhs => rw [← h2]
    rw [List.take_add]
  rw [hsplit, runPipeline_append]
  exact cursorsLe_runPipeline cfg _ _

theorem cursor_monotonic_witness :
    cursorsLe (runPipeline samplePipeCfg samplePipeState (sampleActs.take 1))
      (runPipeline samplePipeCfg samplePipeState (sampleActs.take 3)) :=
  cursor_monotonic samplePipeCfg samplePipeState sampleActs 1 3 (by decide)

/-- Claim C4: every Data Indexer created by `createIndexers` is declared
with exactly one parent, the Block-Timestamp Indexer registered for its
configured chain, and its minimum height equals the position's inclusive
start timestamp. -/
theorem dataIndexer_single_parent_and_min_height
    (config : TvlConfig) (desc : Nat) (cm : AmountEntry → Nat)
    (btis : Option (String → Option Nat))
    (ds : List PremintedIndexer) (vs : List ValueIndexer)
    (h : createIndexers config desc cm btis = .ok (ds, vs)) :
    ∀ d ∈ ds, ∃ bti : Nat,
      d.parents = [DataParent.blockTimestamp bti] ∧
      btis.bind (fun m => m d.configuration.chain) = some bti ∧
      d.minHeight = d.configuration.sinceTimestamp := by
  obtain ⟨pairs, h1, h2, h3, h4⟩ := createIndexersAux_ok h
  subst h1
  intro d hd
  obtain ⟨bp, hbp, rfl⟩ := List.mem_map.mp hd
  exact ⟨bp.1, rfl, h4 bp hbp, rfl⟩

theorem dataIndexer_single_parent_and_min_height_witness :
    ∃ bti : Nat,
      (mkDataIndexer 7 sampleEntry).parents = [DataParent.blockTimestamp bti] ∧
      sampleBtis.bind
        (fun m => m (mkDataIndexer 7 sampleEntry).configuration.chain) = some bti ∧
      (mkDataIndexer 7 sampleEntry).minHeight =
        (mkDataIndexer 7 sampleEntry).configuration.sinceTimestamp :=
  dataIndexer_single_parent_and_min_height sampleTvlConfig 3 sampleCm sampleBtis
    [mkDataIndexer 7 sampleEntry] [mkValueIndexer "ethereum" 3 sampleCm 10 7 sampleEntry]
    rfl (mkDataIndexer 7 sampleEntry) (by decide)

/-- Claim C5: `createIndexers` builds exactly one Data Indexer and one
Value Indexer for each preminted position on an enabled chain (the
configurations of the Data Indexers are exactly the enabled preminted
positions, in order, and the Value Indexers pair up with them
one-to-one); both members of a pair carry the position's inclusive start
timestamp as minimum height, and the Value Indexer's maximum height is
the position's optional end timestamp. -/
theorem one_indexer_pair_per_position
    (config : TvlConfig) (desc : Nat) (cm : AmountEntry → Nat)
    (btis : Option (String → Option Nat))
    (ds : List PremintedIndexer) (vs : List ValueIndexer)
    (h : createIndexers config desc cm btis = .ok (ds, vs)) :
    ds.map PremintedIndexer.configuration =
      enabledPreminted config.amounts config.chains ∧
    ds.length = vs.length ∧
    ∀ (i : Nat) (hd : i < ds.length) (hv : i < vs.length),
      (ds.get ⟨i, hd⟩).minHeight =
        (ds.get ⟨i, hd⟩).configuration.sinceTimestamp ∧
      (vs.get ⟨i, hv⟩).minHeight =
        (ds.get ⟨i, hd⟩).configuration.sinceTimestamp ∧
      (vs.get ⟨i, hv⟩).maxHeight =
        (ds.get ⟨i, hd⟩).configuration.untilTimestamp ∧
      (vs.get ⟨i, hv⟩).amountConfigs = [(ds.get ⟨i, hd⟩).configuration] := by
  obtain ⟨pairs, h1, h2, h3, h4⟩ := createIndexersAux_ok h
  subst h1
  subst h2
  refine ⟨?_, by simp, ?_⟩
  · rw [← h3]
    simp only [List.map_map]
    rfl
  · intro i hd hv
    simp only [List.get_eq_getElem, List.getElem_map]
    exact ⟨rfl, rfl, rfl, rfl⟩

theorem one_indexer_pair_per_position_witness :
    [mkDataIndexer 7 sampleEntry].map PremintedIndexer.configuration =
      enabledPreminted sampleTvlConfig.amounts sampleTvlConfig.chains ∧
    ([mkValueIndexer "ethereum" 3 sampleCm 10 7 sampleEntry].get ⟨0, by decide⟩).minHeight =
      ([mkDataIndexer 7 sampleEntry].get ⟨0, by decide⟩).configuration.sinceTimestamp ∧
    ([mkValueIndexer "ethereum" 3 sampleCm 10 7 sampleEntry].get ⟨0, by decide⟩).maxHeight =
      ([mkDataIndexer 7 sampleEntry].get ⟨0, by decide⟩).configuration.untilTimestamp := by
  have h := one_indexer_pair_per_position sampleTvlConfig 3 sampleCm sampleBtis
    [mkDataIndexer 7 sampleEntry]
    [mkValueIndexer "ethereum" 3 sampleCm 10 7 sampleEntry] rfl
  exact ⟨h.1, (h.2.2 0 (by decide) (by decide)).2.1, (h.2.2 0 (by decide) (by decide)).2.2.1⟩

/-- Claim C6: every Value Indexer created by `createIndexers` carries as
`dataSource` the identity key `{chain}_preminted_{address}` of its
position, and for a fixed chain the key is injective in the address, so
two preminted positions on the same chain with different addresses have
distinct identity keys. -/
theorem preminted_identity_key_distinct :
    (∀ (config : TvlConfig) (desc : Nat) (cm : AmountEntry → Nat)
       (btis : Option (String → Option Nat))
       (ds : List PremintedIndexer) (vs : List ValueIndexer),
       createIndexers config desc cm btis = .ok (ds, vs) →
       ∀ v ∈ vs, ∃ p : AmountEntry,
         v.amountConfigs = [p] ∧
         v.dataSource = premintedKey p.chain p.address) ∧
    (∀ (chain a1 a2 : String), a1 ≠ a2 →
       premintedKey chain a1 ≠ premintedKey chain a2) := by
  constructor
  · intro config desc cm btis ds vs h v hv
    obtain ⟨pairs, h1, h2, h3, h4⟩ := createIndexersAux_ok h
    subst h2
    obtain ⟨bp, hbp, rfl⟩ := List.mem_map.mp hv
    exact ⟨bp.2, rfl, rfl⟩
  · intro chain a1 a2 hne hkey
    exact hne (premintedKey_inj chain hkey)

theorem preminted_identity_key_distinct_witness :
    (∃ p : AmountEntry,
       (mkValueIndexer "ethereum" 3 sampleCm 10 7 sampleEntry).amountConfigs = [p] ∧
       (mkValueIndexer "ethereum" 3 sampleCm 10 7 sampleEntry).dataSource =
         premintedKey p.chain p.address) ∧
    premintedKey "ethereum" "0xabc" ≠ premintedKey "ethereum" "0xdef" :=
  ⟨preminted_identity_key_distinct.1 sampleTvlConfig 3 sampleCm sampleBtis
      [mkDataIndexer 7 sampleEntry]
      [mkValueIndexer "ethereum" 3 sampleCm 10 7 sampleEntry] rfl
      (mkValueIndexer "ethereum" 3 sampleCm 10 7 sampleEntry) (by decide),
   preminted_identity_key_distinct.2 "ethereum" "0xabc" "0xdef" (by decide)⟩

/-- Claim C7: in the module's `start` routine every Data Indexer start
event precedes every Value Indexer start event, and each created Value
Indexer's declared Data parent is among the module's Data Indexers, so a
Value Indexer is never started before its Data parent. -/
theorem data_started_before_value
    (config : TvlConfig) (desc : Nat) (cm : AmountEntry → Nat)
    (btis : Option (String → Option Nat)) (m : PremintedModule)
    (h : initPremintedModule config desc cm btis = .ok (some m)) :
    (∀ (i j : Nat) (hi : i < m.startSequence.length)
       (hj : j < m.startSequence.length)
       (d : PremintedIndexer) (v : ValueIndexer),
       m.startSequence.get ⟨i, hi⟩ = StartedIndexer.data d →
       m.startSequence.get ⟨j, hj⟩ = StartedIndexer.value v → i < j) ∧
    (∀ v ∈ m.valueIndexers, ∃ d ∈ m.dataIndexers,
       ValueParent.data d ∈ v.parents) := by
  have hc := initPremintedModule_ok_some h
  obtain ⟨pairs, h1, h2, h3, h4⟩ := createIndexersAux_ok hc
  constructor
  · intro i j hi hj d v hdi hvj
    unfold PremintedModule.startSequence at hdi hvj
    have hi' : i < m.dataIndexers.length := by
      by_contra hge
      push_neg at hge
      have hge' : (m.dataIndexers.map StartedIndexer.data).length ≤ i := by
        simpa using hge
      rw [List.get_eq_getElem, List.getElem_append_right hge'] at hdi
      rw [List.getElem_map] at hdi
      exact StartedIndexer.noConfusion hdi
    have hj' : m.dataIndexers.length ≤ j := by
      by_contra hlt
      push_neg at hlt
      have hlt' : j < (m.dataIndexers.map StartedIndexer.data).length := by
        simpa using hlt
      rw [List.get_eq_getElem, List.getElem_append_left hlt'] at hvj
      rw [List.getElem_map] at hvj
      exact StartedIndexer.noConfusion hvj
    exact lt_of_lt_of_le hi' hj'
  · intro v hv
    rw [h2] at hv
    obtain ⟨bp, hbp, rfl⟩ := List.mem_map.mp hv
    refine ⟨mkDataIndexer bp.1 bp.2, ?_, ?_⟩
    · rw [h1]
      exact List.mem_map_of_mem _ hbp
    · simp [mkValueIndexer]

theorem data_started_before_value_witness :
    (0 : Nat) < 1 ∧
    ∃ d ∈ sampleModule.dataIndexers,
      ValueParent.data d ∈
        (mkValueIndexer "ethereum" 3 sampleCm 10 7 sampleEntry).parents :=
  ⟨(data_started_before_value sampleTvlConfig 3 sampleCm sampleBtis sampleModule
      rfl).1 0 1 (by decide) (by decide) (mkDataIndexer 7 sampleEntry)
      (mkValueIndexer "ethereum" 3 sampleCm 10 7 sampleEntry) rfl rfl,
   (data_started_before_value sampleTvlConfig 3 sampleCm sampleBtis sampleModule
      rfl).2 (mkValueIndexer "ethereum" 3 sampleCm 10 7 sampleEntry) (by decide)⟩

/-- Claim C8: in the spec model of the Rate-Limited Chain Client, if the
provider fails every call with a transient network failure, the retry
policy makes exactly the configured bounded number of calls and then
surfaces `providerUnavailable`, instead of retrying forever. -/
theorem retry_bounded_then_unavailable {α : Type}
    (provider : Nat → CallOutcome α) (maxAttempts : Nat)
    (hfail : ∀ i, provider i = CallOutcome.transientFailure) :
    callWithRetries provider maxAttempts =
      (.error ClientError.providerUnavailable, maxAttempts) :=
  attemptCalls_allFail hfail maxAttempts 0

theorem retry_bounded_then_unavailable_witness :
    callWithRetries (fun _ => CallOutcome.transientFailure : Nat → CallOutcome Nat) 5 =
      (.error ClientError.providerUnavailable, 5) :=
  retry_bounded_then_unavailable (fun _ => CallOutcome.transientFailure) 5
    (fun _ => rfl)

/-- Claim C9: if an enabled chain carries at least one preminted
position but no Block-Timestamp Indexer is registered for it, module
initialization fails with the assertion error, so no module (and no
start sequence) is produced at all. -/
theorem missing_bti_fails_startup
    (config : TvlConfig) (desc : Nat) (cm : AmountEntry → Nat)
    (btis : Option (String → Option Nat)) (c : ChainConfig)
    (hc : c ∈ config.chains) (hen : c.config.isSome)
    (htok : chainTokens config.amounts c.chain ≠ [])
    (hbti : btis.bind (fun m => m c.chain) = none) :
    initPremintedModule config desc cm btis = .error btiAssertMessage := by
  unfold initPremintedModule createIndexers
  rw [createIndexersAux_error hc hen htok hbti]

theorem missing_bti_fails_startup_witness :
    initPremintedModule sampleTvlConfig 3 sampleCm none = .error btiAssertMessage :=
  missing_bti_fails_startup sampleTvlConfig 3 sampleCm none
    { chain := "ethereum", config := some sampleProvider }
    (by decide) rfl (by decide) rfl

/-- Claim C10: `initPremintedModule` returns `none` exactly when no
preminted position lies on an enabled chain; when it returns a module,
that module's start routine starts every created Data Indexer and every
created Value Indexer. -/
theorem init_none_iff_no_position
    (config : TvlConfig) (desc : Nat) (cm : AmountEntry → Nat)
    (btis : Option (String → Option Nat)) :
    (initPremintedModule config desc cm btis = .ok none ↔
      enabledPreminted config.amounts config.chains = []) ∧
    (∀ m : PremintedModule,
       initPremintedModule config desc cm btis = .ok (some m) →
       (∀ d ∈ m.dataIndexers, StartedIndexer.data d ∈ m.startSequence) ∧
       (∀ v ∈ m.valueIndexers, StartedIndexer.value v ∈ m.startSequence)) := by
  constructor
  · constructor
    · intro h
      unfold initPremintedModule at h
      split at h
      · exact absurd h (by simp)
      · rename_i ds vs hc
        split at h
        · rename_i hlen
          obtain ⟨pairs, h1, h2, h3, h4⟩ := createIndexersAux_ok hc
          have hds : ds = [] := List.length_eq_zero.mp hlen
          subst hds
          have hp : pairs = [] := by
            cases pairs with
            | nil => rfl
            | cons a l => exact absurd h1.symm (by simp)
          rw [← h3, hp]
          rfl
        · exact absurd h (by simp)
    · intro h
      unfold initPremintedModule createIndexers
      rw [enabledPreminted_nil_ok h]
      rfl
  · intro m _
    constructor
    · intro d hd
      unfold PremintedModule.startSequence
      exact List.mem_append_left _ (List.mem_map_of_mem _ hd)
    · intro v hv
      unfold PremintedModule.startSequence
      exact List.mem_append_right _ (List.mem_map_of_mem _ hv)

theorem init_none_iff_no_position_witness :
    (initPremintedModule emptyTvlConfig 3 sampleCm sampleBtis = .ok none ↔
      enabledPreminted emptyTvlConfig.amounts emptyTvlConfig.chains = []) ∧
    StartedIndexer.data (mkDataIndexer 7 sampleEntry) ∈ sampleModule.startSequence ∧
    StartedIndexer.value (mkValueIndexer "ethereum" 3 sampleCm 10 7 sampleEntry) ∈
      sampleModule.startSequence :=
  ⟨(init_none_iff_no_position emptyTvlConfig 3 sampleCm sampleBtis).1,
   ((init_none_iff_no_position sampleTvlConfig 3 sampleCm sampleBtis).2 sampleModule
      rfl).1 (mkDataIndexer 7 sampleEntry) (by decide),
   ((init_none_iff_no_position sampleTvlConfig 3 sampleCm sampleBtis).2 sampleModule
      rfl).2 (mkValueIndexer "ethereum" 3 sampleCm 10 7 sampleEntry) (by decide)⟩
